import Mathlib

/-!
# Verification of the docsify-auto-headers heading-numbering engine

Shallow embedding of `src/docs/docsify-auto-headers.js` and proofs about it.

Conventions of the embedding:
* JavaScript strings are Lean `String`s; string scanning is done structurally on
  `String.data` (`List Char`) so that every definition reduces inside the kernel.
* JavaScript numbers that the program actually produces are integers, modelled
  as `Int` (`parseInt` results, counter values).  The floating-point overflow
  of `parseInt` on tokens with hundreds of digits is not modelled.
* A thrown JavaScript exception is modelled with `Except JsError`.
* Heading levels are 1-based `Nat`s; the per-level tables keyed by the strings
  `"h1" .. "h6"` in the source are modelled as total functions on `Nat` whose
  meaningful domain is `1..6` (the source never reads any other key).

Scoping note used throughout: the helpers `validateAndGetHeadingRange`,
`getStartingValues` and `checkAutoHeader` are module-level arrow functions
whose bodies mention the identifier `options`, but `options` is a local
variable of `autoHeaders` and is not lexically visible there.  The module is
in strict mode, so every error path of those helpers — which always starts by
evaluating `options.debug` as an argument of `showErrorMessage` — throws
`ReferenceError: options is not defined`, independently of the `debug` flag.
That exception is modelled as `JsError.referenceError "options"`.
-/

namespace DocsifyAutoHeaders

/-! ## Character classes and basic string utilities (JS semantics) -/

/-- The JavaScript whitespace class (`\s`, `String.prototype.trim`):
tab through carriage return, space, NBSP, the Unicode space separators,
line/paragraph separators, narrow no-break space, medium mathematical space,
ideographic space and the BOM. -/
def isJsWhitespace (c : Char) : Bool :=
  let n := c.toNat
  (9 ≤ n && n ≤ 13) || n = 32 || n = 160 || n = 5760 || (8192 ≤ n && n ≤ 8202) ||
    n = 8232 || n = 8233 || n = 8239 || n = 8287 || n = 12288 || n = 65279

/-- The regex class `\d` / `[0-9]` (code points 48–57). -/
def isAsciiDigit (c : Char) : Bool :=
  48 ≤ c.toNat && c.toNat ≤ 57

/-- The regex class `[a-zA-Z]` (code points 65–90 and 97–122). -/
def isAsciiLetter (c : Char) : Bool :=
  (65 ≤ c.toNat && c.toNat ≤ 90) || (97 ≤ c.toNat && c.toNat ≤ 122)

/-- Fuel-driven worker for `jsSplit`; the fuel is an upper bound on the number
of characters still to be consumed, so the recursion is structural. -/
def jsSplitAux (sep : List Char) : Nat → List Char → List (List Char)
  | _, [] => [[]]
  | 0, cs => [cs]
  | fuel + 1, c :: rest =>
    if sep.isPrefixOf (c :: rest) then
      [] :: jsSplitAux sep fuel ((c :: rest).drop sep.length)
    else
      match jsSplitAux sep fuel rest with
      | [] => [[c]]
      | h :: t => (c :: h) :: t

/-- JavaScript `String.prototype.split` with a string separator:
scan left to right, cut at every occurrence of the separator; an empty
separator splits into single characters. -/
def jsSplit (s sep : String) : List String :=
  if sep = "" then s.data.map (fun c => String.mk [c])
  else (jsSplitAux sep.data (s.data.length + 1) s.data).map String.mk

/-- JavaScript `String.prototype.trim`. -/
def jsTrim (s : String) : String :=
  String.mk (((s.data.dropWhile isJsWhitespace).reverse.dropWhile isJsWhitespace).reverse)

/-- JavaScript `Array.prototype.join` with a string separator. -/
def joinSep (sep : String) : List String → String
  | [] => ""
  | [x] => x
  | x :: y :: rest => x ++ sep ++ joinSep sep (y :: rest)

/-- `pre.isPrefixOf s` on the character lists: JavaScript `String.prototype.startsWith`. -/
def startsWithL (pre s : String) : Bool :=
  pre.data.isPrefixOf s.data

/-- Decimal digits of a natural number, most significant first (fuel-driven
so that it reduces structurally; the fuel `n + 1` always suffices). -/
def natToStrAux : Nat → Nat → List Char
  | 0, _ => []
  | fuel + 1, n =>
    if n < 10 then [Char.ofNat (48 + n)]
    else natToStrAux fuel (n / 10) ++ [Char.ofNat (48 + n % 10)]

/-- Decimal rendering of a natural number. -/
def natToStr (n : Nat) : String :=
  String.mk (natToStrAux (n + 1) n)

/-- JavaScript number-to-string conversion restricted to integral values,
as produced by template literals and `Array.prototype.join`. -/
def intToStr (i : Int) : String :=
  if i < 0 then "-" ++ natToStr i.natAbs else natToStr i.natAbs

/-! ## Error model and data model -/

/-- The JavaScript exceptions the embedded code can throw. -/
inductive JsError where
  /-- Strict-mode access to an identifier that is not in scope. -/
  | referenceError (name : String)
  /-- E.g. destructuring `undefined`. -/
  | typeError
  deriving DecidableEq, Repr

/-- One per-level counter record `{ reset, current }` (source lines 147–151). -/
structure CounterEntry where
  reset : Int
  current : Int
  deriving DecidableEq, Repr

/-- The `currentCounts` map of the source, keyed by heading level `1..6`. -/
abbrev CountState := Nat → CounterEntry

/-- One entry of the merged `headingConfiguration` object: the `inScope`
flag from `validateAndGetHeadingRange` and the `counter` seed string from
`getStartingValues`. -/
structure LevelConfig where
  inScope : Bool
  counter : String

/-- The `levels` configuration value handed to `validateAndGetHeadingRange`:
a plain number, an object whose `start`/`finish` properties are numbers when
present (`none` models `undefined` or a non-numeric value), or anything else. -/
inductive LevelsInput where
  | num (n : Int)
  | obj (start finish : Option Int)
  | other
  deriving Repr

/-- A rendered heading element as seen by the tree renderer. -/
structure HeadingNode where
  level : Nat
  innerHTML : String
  deriving DecidableEq, Repr

/-! ## setDefaultOptions (source lines 46–65): separator normalisation -/

/-- A JavaScript value as far as the separator computation can observe it:
either a string, or a member inherited from `Object.prototype` (a function,
or for `__proto__` the prototype object itself), identified by its property
name.  Every inherited member is truthy. -/
inductive JsValue where
  | str (s : String)
  | inheritedMember (name : String)
  deriving DecidableEq, Repr

/-- The property names every object literal inherits from
`Object.prototype`. -/
def objectProtoKeys : List String :=
  ["constructor", "hasOwnProperty", "isPrototypeOf", "propertyIsEnumerable",
   "toLocaleString", "toString", "valueOf", "__proto__",
   "__defineGetter__", "__defineSetter__", "__lookupGetter__", "__lookupSetter__"]

/-- The lookup `separatorMap[key]` on the object literal of
`setDefaultOptions`: the six own properties first; for any other key the
lookup continues along the prototype chain and finds the `Object.prototype`
members; only a key absent from both gives `undefined` (`none`). -/
def separatorMap (s : String) : Option JsValue :=
  if s = "decimal" then some (.str ".") else
  if s = "dot" then some (.str ".") else
  if s = "dash" then some (.str "-") else
  if s = "hyphen" then some (.str "-") else
  if s = "bracket" then some (.str ")") else
  if s = "parenthesis" then some (.str ")") else
  if s ∈ objectProtoKeys then some (.inheritedMember s)
  else none

/-- `separatorMap[options.separator] || options.separator`.  Every own value
of the map is a non-empty string and every inherited `Object.prototype`
member is truthy, so `||` falls through exactly when the key is found
neither on the literal nor on its prototype chain. -/
def resolveSeparator (s : String) : JsValue :=
  match separatorMap s with
  | some v => v
  | none => .str s

/-! ## validateAndGetHeadingRange (source lines 75–109) -/

/-- The local helper `isInRange = (value, min, max) => value >= min && value <= max`. -/
def isInRange (value mn mx : Int) : Bool :=
  decide (mn ≤ value) && decide (value ≤ mx)

/-- `validateAndGetHeadingRange`.  Every failing check calls
`showErrorMessage(options.debug, …)` with `options` out of scope, so each
error path throws `ReferenceError` (see the header note); in particular the
inverted-range and out-of-range conditions raise the *same* exception, and the
out-of-range branch could never produce its intended message anyway, because
it reads the nonexistent key `errorMessage.headingLevelRange`.  On success the
result is the `headings` table `h1..h6 ↦ { inScope }`, modelled as the
in-scope predicate on levels. -/
def validateAndGetHeadingRange : LevelsInput → Except JsError (Nat → Bool)
  | .num n =>
    if isInRange 1 1 6 && isInRange n 1 6 then
      .ok (fun i => isInRange (Int.ofNat i) 1 n)
    else .error (.referenceError "options")
  | .obj ostart ofinish =>
    match ostart, ofinish with
    | some a, some b =>
      if decide (a > b) then .error (.referenceError "options")
      else if isInRange a 1 6 && isInRange b 1 6 then
        .ok (fun i => isInRange (Int.ofNat i) a b)
      else .error (.referenceError "options")
    | _, _ => .error (.referenceError "options")
  | .other => .error (.referenceError "options")

/-! ## getStartingValues (source lines 111–133) -/

/-- The regex test `/^\d+$/.test(str)`. -/
def isAllNumeric (s : String) : Bool :=
  !s.data.isEmpty && s.data.all isAsciiDigit

/-- The regex test `/^[a-zA-Z]+$/.test(str)`. -/
def isAllAlphabetic (s : String) : Bool :=
  !s.data.isEmpty && s.data.all isAsciiLetter

/-- `getStartingValues(headerNumbers, separator)`: split the signifier on the
separator, trim each token; if the tokens are neither uniformly numeric nor
uniformly alphabetic the error path throws `ReferenceError` (header note; the
message it meant to raise is `errorMessage.invalidHeadingLevels`, the
level-type message, not a signifier-specific one).  Otherwise pad to six
tokens with `"1"` (numeric) or `"A"` (alphabetic) and return the table
`h1..h6 ↦ { counter }`, modelled as level `i ↦` token `i`.  The `getD`
default is never read for levels `1..6` because the padded list has at least
six elements. -/
def getStartingValues (headerNumbers separator : String) : Except JsError (Nat → String) :=
  let elements := (jsSplit headerNumbers separator).map jsTrim
  let isNumeric := elements.all isAllNumeric
  let isAlphabetic := elements.all isAllAlphabetic
  if !(isNumeric || isAlphabetic) then .error (.referenceError "options")
  else
    let padded := elements ++ List.replicate (6 - elements.length) (if isNumeric then "1" else "A")
    .ok (fun i => padded.getD (i - 1) "")

/-! ## checkAutoHeader (source lines 135–142) -/

/-- The character class `[\d.a-zA-Z\-:,~]` of the `autoHeaderPattern` regex. -/
def isSignifierChar (c : Char) : Bool :=
  isAsciiDigit c || c.toNat = 46 || isAsciiLetter c || c.toNat = 45 ||
    c.toNat = 58 || c.toNat = 44 || c.toNat = 126

/-- Greedy capture `([\d.a-zA-Z\-:,~]+)`: the maximal non-empty run of
signifier characters; an empty run means the regex does not match, and the
missing-signifier path throws (header note: `ReferenceError`, thrown while
evaluating `options.debug`; had execution continued, `match[1]` on `null`
would throw `TypeError` as well — either way `checkAutoHeader` never returns
on a non-matching document). -/
def signifierToken (cs : List Char) : Except JsError String :=
  let tok := cs.takeWhile isSignifierChar
  if tok.isEmpty then .error (.referenceError "options")
  else .ok (String.mk tok)

/-- `checkAutoHeader(markdown)`: anchor the pattern
`^(?:@autoHeader:|<!-- autoHeader:)([\d.a-zA-Z\-:,~]+)(?: -->)?` at the start
of the trimmed document and return the first capture group.  The optional
` -->` tail does not influence the capture. -/
def checkAutoHeader (markdown : String) : Except JsError String :=
  let t := jsTrim markdown
  if startsWithL "@autoHeader:" t then
    signifierToken (t.data.drop 12)
  else if startsWithL "<!-- autoHeader:" t then
    signifierToken (t.data.drop 16)
  else .error (.referenceError "options")

/-! ## createCountContextObjects (source lines 144–160) -/

/-- Digit-run evaluation used by `parseIntBase10`: value of the maximal
leading run of ASCII digits, or `none` when that run is empty (JS `NaN`). -/
def digitsVal (cs : List Char) : Option Nat :=
  let ds := cs.takeWhile isAsciiDigit
  if ds.isEmpty then none
  else some (ds.foldl (fun a c => a * 10 + (c.toNat - 48)) 0)

/-- Sign handling of `parseInt` after whitespace skipping: an optional
leading `-` or `+`, then the maximal digit run. -/
def parseIntChars : List Char → Option Int
  | [] => none
  | c :: rest =>
    if c = '-' then (digitsVal rest).map (fun n => -(n : Int))
    else if c = '+' then (digitsVal rest).map (fun n => (n : Int))
    else (digitsVal (c :: rest)).map (fun n => (n : Int))

/-- JavaScript `parseInt(s, 10)`: skip leading whitespace, read an optional
sign, then the maximal digit run; `none` models `NaN`. -/
def parseIntBase10 (s : String) : Option Int :=
  parseIntChars (s.data.dropWhile isJsWhitespace)

/-- `createCountContextObjects(levels)`: build `currentCounts`
(per level: `counter = parseInt(counter, 10)`, then
`Number.isFinite(counter) ? counter - 1 : 0`, stored as both `reset` and
`current`) and `scopedTagNames` (the levels whose config is in scope). -/
def createCountContextObjects (levels : Nat → LevelConfig) : CountState × (Nat → Bool) :=
  (fun i =>
    match parseIntBase10 (levels i).counter with
    | some n => ⟨n - 1, n - 1⟩
    | none => ⟨0, 0⟩,
   fun i => (levels i).inScope)

/-! ## The advance step shared by both renderers (source lines 162–190 and 192–225)

The body of the `parseMarkdown` replacement callback consists of three
chunks, embedded one-to-one below: the reset loop over the deeper levels,
the increment of the current level, and the label composition. -/

/-- The reset loop: for every name in `headingNameList.slice(level)`, i.e.
levels `level+1 .. 6`, set `current := reset` and then `reset := 0`
(the `currentCounts.has(name)` guard always holds — the map is built with
all six keys). -/
def resetDeeper (s : CountState) (lvl : Nat) : CountState :=
  fun j => if lvl < j ∧ j ≤ 6 then ⟨0, (s j).reset⟩ else s j

/-- `counts.current += 1` for the current heading level. -/
def bumpAt (s : CountState) (lvl : Nat) : CountState :=
  fun j => if j = lvl then ⟨(s j).reset, (s j).current + 1⟩ else s j

/-- The label: `current` of levels `1..lvl` (after the update), joined with
the separator, plus one trailing separator
(`Array.from({length}, …).join(sep) + sep`). -/
def composeLabel (sep : String) (s : CountState) (lvl : Nat) : String :=
  joinSep sep ((List.range lvl).map fun i => intToStr (s (i + 1)).current) ++ sep

/-- One advance step at heading level `lvl`: reset the deeper levels, bump
the current one, and produce the label exactly when `lvl` is in
`scopedTagNames`. -/
def advance (scope : Nat → Bool) (sep : String) (s : CountState) (lvl : Nat) :
    CountState × Option String :=
  let s2 := bumpAt (resetDeeper s lvl) lvl
  (s2, if scope lvl then some (composeLabel sep s2 lvl) else none)

/-- Run `advance` over a document-order list of heading levels, collecting
the produced labels. -/
def advanceAll (scope : Nat → Bool) (sep : String) : CountState → List Nat → List (Option String)
  | _, [] => []
  | s, l :: rest =>
    (advance scope sep s l).2 :: advanceAll scope sep (advance scope sep s l).1 rest

/-! ## parseMarkdown, the text renderer (source lines 192–225) -/

/-- Line-anchored match of `^(#{1,6})\s+(.*)$`: a maximal run of `1..6`
hashes (a seventh hash makes the whole pattern fail), at least one whitespace
character, then the rest of the line with the greedy `\s+` run removed.
Returns the heading level and the `text` capture. -/
def matchHeading (line : String) : Option (Nat × String) :=
  let n := (line.data.takeWhile (fun c => c = '#')).length
  if 1 ≤ n ∧ n ≤ 6 then
    let rest := line.data.drop n
    if (rest.takeWhile isJsWhitespace).isEmpty then none
    else some (n, String.mk (rest.dropWhile isJsWhitespace))
  else none

/-- The replacement callback applied to one line: a non-heading line is
returned verbatim (no regex match); a heading line advances the counter and
is rewritten to `` `${hashes} ${counter} ${text}` `` when its level is
scope, or returned as the original match when it is not. -/
def parseMarkdownLine (scope : Nat → Bool) (sep : String) (s : CountState) (line : String) :
    CountState × String :=
  match matchHeading line with
  | none => (s, line)
  | some (lvl, text) =>
    match advance scope sep s lvl with
    | (s2, some counter) =>
      (s2, String.mk (List.replicate lvl '#') ++ " " ++ counter ++ " " ++ text)
    | (s2, none) => (s2, line)

/-- Thread the counter state through the lines in source order. -/
def parseMarkdownGo (scope : Nat → Bool) (sep : String) : CountState → List String → List String
  | _, [] => []
  | s, line :: rest =>
    (parseMarkdownLine scope sep s line).2 ::
      parseMarkdownGo scope sep (parseMarkdownLine scope sep s line).1 rest

/-- `parseMarkdown(markdown, options, levels)`: create the counting context
from the levels configuration and rewrite every matching heading line in
place.  The global multiline `replace` of the source is equivalent to
processing the `\n`-separated lines independently and re-joining them, which
is how it is embedded. -/
def parseMarkdown (levels : Nat → LevelConfig) (sep : String) (markdown : String) : String :=
  let ctx := createCountContextObjects levels
  joinSep "\n" (parseMarkdownGo ctx.2 sep ctx.1 (jsSplit markdown "\n"))

/-! ## The tree renderer (source lines 162–190 and 232–240) -/

/-- `applyCurrentCountThroughBoundContext(headingNode, options)`.  The source
declares it as an *arrow* function, so `Function.prototype.call` cannot
rebind `this`; `this` is the lexical `this` of the strict-mode IIFE, i.e.
`undefined`, and the very first statement
`const { currentCounts, scopedTagNames } = this;` throws a `TypeError`
before anything else runs.  The call therefore fails on every node, for every
argument, and never mutates a node or the counter state. -/
def applyCurrentCountThroughBoundContext (_node : HeadingNode) : Except JsError HeadingNode :=
  .error .typeError

/-- The `'html'` branch of `applyScopedHeadingCounts`: apply the per-node
routine to the heading nodes in document order (`forEach`; the first thrown
exception aborts the walk). -/
def applyScopedHeadingCountsHtml : List HeadingNode → Except JsError (List HeadingNode)
  | [] => .ok []
  | n :: rest => do
    let n2 ← applyCurrentCountThroughBoundContext n
    let rest2 ← applyScopedHeadingCountsHtml rest
    .ok (n2 :: rest2)

/-! ## The first beforeEach hook of autoHeaders (source lines 258–295) -/

/-- `markdown.split('\n').slice(1).join('\n')` — the document with its first
line removed. -/
def stripFirstLine (markdown : String) : String :=
  joinSep "\n" ((jsSplit markdown "\n").drop 1)

/-- What the first `beforeEach` hook hands to `next`, together with the
`shouldContinue` flag it leaves behind. -/
structure Hook1Result where
  /-- The argument of `next(cleanedMarkdown)`; `none` models `undefined`. -/
  passed : Option String
  shouldContinue : Bool
  deriving DecidableEq, Repr

/-- The first `beforeEach` hook: extract the signifier, re-validate the
level range, seed the starting values, and only then assign
`cleanedMarkdown`.  Every exception is caught (`catch` warns and clears
`shouldContinue`), and the `finally` block always calls
`next(cleanedMarkdown)` — so on any failure the hook forwards `undefined`,
because `cleanedMarkdown` was never assigned.  The guards
`if (!headingSignifier)` and `if (!startingHeadingValues)` never fire: the
capture is a non-empty string and `getStartingValues` returns an object. -/
def beforeEachHook1 (levelsIn : LevelsInput) (separator markdown : String) : Hook1Result :=
  match checkAutoHeader markdown with
  | .error _ => ⟨none, false⟩
  | .ok sig =>
    match validateAndGetHeadingRange levelsIn with
    | .error _ => ⟨none, false⟩
    | .ok _ =>
      match getStartingValues sig separator with
      | .error _ => ⟨none, false⟩
      | .ok _ => ⟨some (stripFirstLine markdown), true⟩

deriving instance DecidableEq for Except

/-! ## Auxiliary lemmas -/

/-- An ASCII letter is not JavaScript whitespace. -/
theorem isJsWhitespace_eq_false_of_letter {c : Char} (h : isAsciiLetter c = true) :
    isJsWhitespace c = false := by
  simp only [isAsciiLetter, Bool.or_eq_true, Bool.and_eq_true, decide_eq_true_eq] at h
  simp only [isJsWhitespace, Bool.or_eq_false_iff, Bool.and_eq_false_iff,
    decide_eq_false_iff_not, not_le]
  omega

/-- An ASCII letter is not an ASCII digit. -/
theorem isAsciiDigit_eq_false_of_letter {c : Char} (h : isAsciiLetter c = true) :
    isAsciiDigit c = false := by
  simp only [isAsciiLetter, Bool.or_eq_true, Bool.and_eq_true, decide_eq_true_eq] at h
  simp only [isAsciiDigit, Bool.and_eq_false_iff, decide_eq_false_iff_not, not_le]
  omega

/-- `parseInt` of an all-alphabetic token is `NaN`: the first character is
neither whitespace nor a sign nor a digit, so the digit run is empty. -/
theorem parseIntBase10_eq_none_of_alphabetic {s : String} (h : isAllAlphabetic s = true) :
    parseIntBase10 s = none := by
  simp only [isAllAlphabetic, Bool.and_eq_true, Bool.not_eq_true', List.isEmpty_eq_false,
    List.all_eq_true] at h
  obtain ⟨hne, hall⟩ := h
  match hs : s.data with
  | [] => exact absurd hs hne
  | c :: rest =>
    have hc : isAsciiLetter c = true := hall c (hs ▸ List.mem_cons_self c rest)
    have hdash : c ≠ '-' := by rintro rfl; exact absurd hc (by decide)
    have hplus : c ≠ '+' := by rintro rfl; exact absurd hc (by decide)
    rw [parseIntBase10, hs, List.dropWhile_cons, isJsWhitespace_eq_false_of_letter hc]
    simp [parseIntChars, hdash, hplus, digitsVal, List.takeWhile_cons,
      isAsciiDigit_eq_false_of_letter hc]

/-! ## Claim theorems -/

/-- C1: one advance step at heading level `lvl` (with `1 ≤ lvl ≤ 6`) sets,
for every deeper level `j` (`lvl < j ≤ 6`), that entry's `current` to its old
`reset` and its `reset` to `0`; increments `current` at `lvl` by exactly one
(leaving its `reset` untouched) and leaves the shallower levels unchanged;
and produces, exactly when `lvl` is in scope, the label joining the updated
`current` values of levels `1..lvl` with the separator plus one trailing
separator. -/
theorem advance_step_behaviour (scope : Nat → Bool) (sep : String) (s : CountState)
    (lvl : Nat) (hlvl1 : 1 ≤ lvl) (hlvl6 : lvl ≤ 6) :
    (∀ j, lvl < j → j ≤ 6 →
      ((advance scope sep s lvl).1 j).current = (s j).reset ∧
      ((advance scope sep s lvl).1 j).reset = 0) ∧
    ((advance scope sep s lvl).1 lvl).current = (s lvl).current + 1 ∧
    ((advance scope sep s lvl).1 lvl).reset = (s lvl).reset ∧
    (∀ j, j < lvl → (advance scope sep s lvl).1 j = s j) ∧
    (scope lvl = true → (advance scope sep s lvl).2 =
      some (joinSep sep ((List.range lvl).map fun i =>
        intToStr (if i + 1 = lvl then (s (i + 1)).current + 1 else (s (i + 1)).current)) ++
          sep)) ∧
    (scope lvl = false → (advance scope sep s lvl).2 = none) := by
  refine ⟨?_, ?_, ?_, ?_, ?_, ?_⟩
  · intro j hj hj6
    have hne : j ≠ lvl := by omega
    constructor <;> simp [advance, bumpAt, resetDeeper, hne, hj, hj6]
  · simp [advance, bumpAt, resetDeeper]
  · simp [advance, bumpAt, resetDeeper]
  · intro j hj
    have hne : j ≠ lvl := by omega
    have hnlt : ¬ lvl < j := by omega
    simp [advance, bumpAt, resetDeeper, hne, hnlt]
  · intro hs
    simp only [advance, hs, if_true]
    refine congrArg some ?_
    rw [composeLabel]
    refine congrArg (· ++ sep) (congrArg (joinSep sep) (List.map_congr_left ?_))
    intro i hi
    rw [List.mem_range] at hi
    by_cases hieq : i + 1 = lvl
    · simp [bumpAt, resetDeeper, hieq]
    · have hnlt : ¬ lvl < i + 1 := by omega
      simp [bumpAt, resetDeeper, hieq, hnlt]
  · intro hs
    simp [advance, hs]

/-- Witness for C1 at a concrete state and level. -/
theorem advance_step_behaviour_witness :
    (advance (fun _ => true) "-" (fun _ => ⟨0, 0⟩) 2).2 = some "0-1-" := by
  have h := advance_step_behaviour (fun _ => true) "-" (fun _ => ⟨0, 0⟩) 2
    (by decide) (by decide)
  rw [h.2.2.2.2.1 rfl]
  decide

/-- C2 (code bug): the two renderers are not equivalent.  On a document whose
only heading is an `h1` with text `a`, seed `"1"` and separator `"-"`, the
text renderer labels the heading (`"# a"` becomes `"# 1- a"`), while the tree
renderer throws a `TypeError` on its first node and labels nothing — the
arrow function `applyCurrentCountThroughBoundContext` cannot receive the
counter context through `.call`, so `this` is `undefined` and the opening
destructuring fails. -/
theorem tree_renderer_throws_text_renderer_labels :
    applyScopedHeadingCountsHtml [⟨1, "a"⟩] = .error .typeError ∧
    (do
      let scope ← validateAndGetHeadingRange (.num 6)
      let sv ← getStartingValues "1" "-"
      pure (parseMarkdown (fun i => ⟨scope i, sv i⟩) "-" "# a")) = Except.ok "# 1- a" :=
  ⟨rfl, by decide⟩

/-- C3 (code bug): on a document without a signifier, the first
`beforeEach` hook catches the failure (nothing is raised) but then executes
`next(cleanedMarkdown)` with `cleanedMarkdown` never assigned — the value
passed onward is `undefined`, not the original document. -/
theorem failure_forwards_undefined_not_original :
    checkAutoHeader "hello world" = .error (.referenceError "options") ∧
    beforeEachHook1 (.num 6) "-" "hello world" = ⟨none, false⟩ ∧
    (beforeEachHook1 (.num 6) "-" "hello world").passed ≠ some "hello world" := by
  refine ⟨rfl, rfl, ?_⟩
  decide

/-- C4: with the seed tokens `["1","1"]` (signifier `"1-1"`, separator `-`,
every level seeded to `current = reset = 0`) and the heading sequence
`[h1, h2, h2, h1, h2]`, the advance steps emit exactly the labels
`"1-"`, `"1-1-"`, `"1-2-"`, `"2-"`, `"2-1-"` in order, and the text renderer
rewrites the corresponding document accordingly. -/
theorem outline_numbering_seed_1_1 :
    (do
      let scope ← validateAndGetHeadingRange (.num 6)
      let sv ← getStartingValues "1-1" "-"
      let lv : Nat → LevelConfig := fun i => ⟨scope i, sv i⟩
      let ctx := createCountContextObjects lv
      pure (advanceAll ctx.2 "-" ctx.1 [1, 2, 2, 1, 2],
        parseMarkdown lv "-" "# a\n## b\n## c\n# d\n## e")) =
    Except.ok ([some "1-", some "1-1-", some "1-2-", some "2-", some "2-1-"],
      "# 1- a\n## 1-1- b\n## 1-2- c\n# 2- d\n## 2-1- e") := by
  decide

/-- C5 (code bug): counter-state construction from the mixed signifier
tokens `["1","A"]` does fail, but not with a distinct `MalformedSignifier`
kind: `getStartingValues` evaluates `options.debug` with `options` out of
scope, so the failure is `ReferenceError: options is not defined` (and even
the message it meant to pass was `errorMessage.invalidHeadingLevels`, the
level-type message). -/
theorem mixed_signifier_reference_error :
    getStartingValues "1-A" "-" = .error (.referenceError "options") := rfl

/-- C6 counterexample: the claim says an all-alphabetic signifier makes the
engine render successor-of-letter labels (seed `"A"` yielding labels starting
at `"A"`); on the code, the pipeline seeded from signifier `"A"` labels the
document `"# x"` as `"# 1- x"` — an integer label, not `"# A- x"`. -/
theorem alphabetic_label_counterexample :
    (do
      let scope ← validateAndGetHeadingRange (.num 6)
      let sv ← getStartingValues "A" "-"
      pure (parseMarkdown (fun i => ⟨scope i, sv i⟩) "-" "# x")) = Except.ok "# 1- x" ∧
    "# 1- x" ≠ "# A- x" :=
  ⟨by decide, by decide⟩

/-- C6 (amended): an all-alphabetic signifier is accepted, but there is no
alphabetic rendering mode: `parseInt` of every alphabetic token is `NaN`, so
every level seeds to `reset = current = 0`, and labels are rendered as
integers — the pipeline seeded from signifier `"A"` labels `"# x"` as
`"# 1- x"`. -/
theorem alphabetic_mode_renders_integers (levels : Nat → LevelConfig)
    (h : ∀ i, 1 ≤ i → i ≤ 6 → isAllAlphabetic (levels i).counter = true) :
    (∀ i, 1 ≤ i → i ≤ 6 → (createCountContextObjects levels).1 i = ⟨0, 0⟩) ∧
    parseMarkdown (fun _ => ⟨true, "A"⟩) "-" "# x" = "# 1- x" := by
  refine ⟨fun i h1 h6 => ?_, by decide⟩
  simp [createCountContextObjects, parseIntBase10_eq_none_of_alphabetic (h i h1 h6)]

/-- Witness for C6 (amended) at the constant all-`"A"` configuration. -/
theorem alphabetic_mode_renders_integers_witness :
    (createCountContextObjects (fun _ => ⟨true, "A"⟩)).1 1 = ⟨0, 0⟩ := by
  exact (alphabetic_mode_renders_integers (fun _ => ⟨true, "A"⟩)
    (fun _ _ _ => rfl)).1 1 (by decide) (by decide)

/-- C7 (code bug): the inverted-range input `{start: 3, finish: 2}` and the
out-of-range input `{start: 0, finish: 0}` both make
`validateAndGetHeadingRange` throw the very same
`ReferenceError: options is not defined` — there are no distinct
`InvertedRange` and `OutOfRange` failure kinds (the out-of-range branch also
reads the nonexistent message key `errorMessage.headingLevelRange`). -/
theorem level_range_errors_collapse :
    validateAndGetHeadingRange (.obj (some 3) (some 2)) = .error (.referenceError "options") ∧
    validateAndGetHeadingRange (.obj (some 0) (some 0)) = .error (.referenceError "options") :=
  ⟨rfl, rfl⟩

/-- C8: for every valid level spec `{start: a, finish: b}` (both bounds in
`[1,6]`, `a ≤ b`) the resolver returns a table marking level `L ∈ 1..6` in
scope exactly when `a ≤ L ≤ b`, and a single-number input `b` resolves to the
same result as `{start: 1, finish: b}`. -/
theorem valid_level_spec_table (a b : Int)
    (ha1 : 1 ≤ a) (ha6 : a ≤ 6) (hb1 : 1 ≤ b) (hb6 : b ≤ 6) (hab : a ≤ b) :
    (∃ t, validateAndGetHeadingRange (.obj (some a) (some b)) = .ok t ∧
      ∀ L : Nat, 1 ≤ L → L ≤ 6 →
        t L = (decide (a ≤ (L : Int)) && decide ((L : Int) ≤ b))) ∧
    validateAndGetHeadingRange (.num b) = validateAndGetHeadingRange (.obj (some 1) (some b)) := by
  have h2 : (isInRange a 1 6 && isInRange b 1 6) = true := by
    simp only [isInRange, Bool.and_eq_true, decide_eq_true_eq]
    omega
  have h1b : (isInRange 1 1 6 && isInRange b 1 6) = true := by
    simp only [isInRange, Bool.and_eq_true, decide_eq_true_eq]
    omega
  constructor
  · refine ⟨fun i => isInRange (Int.ofNat i) a b, ?_, ?_⟩
    · have hgt : ¬ a > b := by omega
      simp [validateAndGetHeadingRange, hgt, h2]
    · intro L _ _
      rfl
  · have hgt : ¬ (1 : Int) > b := by omega
    simp [validateAndGetHeadingRange, hgt, h1b]

/-- Witness for C8 at `{start: 2, finish: 3}`. -/
theorem valid_level_spec_table_witness :
    ∃ t, validateAndGetHeadingRange (.obj (some 2) (some 3)) = .ok t ∧
      t 1 = false ∧ t 2 = true ∧ t 3 = true ∧ t 4 = false := by
  obtain ⟨⟨t, ht, htab⟩, _⟩ :=
    valid_level_spec_table 2 3 (by decide) (by decide) (by decide) (by decide) (by decide)
  refine ⟨t, ht, ?_, ?_, ?_, ?_⟩
  · rw [htab 1 (by decide) (by decide)]; decide
  · rw [htab 2 (by decide) (by decide)]; decide
  · rw [htab 3 (by decide) (by decide)]; decide
  · rw [htab 4 (by decide) (by decide)]; decide

/-- C9 counterexample: the document `"@autoHeader:1-A\nhello"` is accepted by
the signifier parser (capture `"1-A"`), yet the hook does not pass on the
input minus its first line — seeding fails on the mixed tokens and the hook
forwards `undefined`. -/
theorem accepted_signifier_not_stripped_counterexample :
    checkAutoHeader "@autoHeader:1-A\nhello" = .ok "1-A" ∧
    (beforeEachHook1 (.num 6) "-" "@autoHeader:1-A\nhello").passed ≠
      some (stripFirstLine "@autoHeader:1-A\nhello") := by
  refine ⟨by decide, ?_⟩
  have h : (beforeEachHook1 (.num 6) "-" "@autoHeader:1-A\nhello").passed = none := rfl
  rw [h]
  decide

/-- C9 (amended): for every document accepted by the signifier parser *whose
level validation and counter seeding also succeed*, the hook passes on the
input with its first line (the signifier's source line) removed and the
remaining lines unchanged, and records that processing should continue. -/
theorem accepted_signifier_strips_first_line (li : LevelsInput) (sep markdown sig : String)
    (t : Nat → Bool) (sv : Nat → String)
    (h1 : checkAutoHeader markdown = .ok sig)
    (h2 : validateAndGetHeadingRange li = .ok t)
    (h3 : getStartingValues sig sep = .ok sv) :
    beforeEachHook1 li sep markdown =
      ⟨some (joinSep "\n" ((jsSplit markdown "\n").drop 1)), true⟩ := by
  simp [beforeEachHook1, h1, h2, h3, stripFirstLine]

/-- Witness for C9 (amended) on a concrete accepted document. -/
theorem accepted_signifier_strips_first_line_witness :
    beforeEachHook1 (.num 6) "-" "@autoHeader:1\nhello\nworld" =
      ⟨some "hello\nworld", true⟩ := by
  have h := accepted_signifier_strips_first_line (.num 6) "-" "@autoHeader:1\nhello\nworld" "1"
    (fun i => isInRange (Int.ofNat i) 1 6)
    (fun i => (["1", "1", "1", "1", "1", "1"] : List String).getD (i - 1) "")
    rfl rfl rfl
  rw [h]
  decide

/-- C10 counterexample: the claim says every separator value other than the
six named ones is left unchanged, but `separatorMap['toString']` finds the
inherited, truthy `Object.prototype.toString` on the prototype chain, so
`||` does not fall through and the program replaces the separator with that
inherited member instead of keeping the string `"toString"`. -/
theorem separator_prototype_counterexample :
    resolveSeparator "toString" = .inheritedMember "toString" ∧
    JsValue.inheritedMember "toString" ≠ JsValue.str "toString" :=
  ⟨rfl, by decide⟩

/-- C10 (amended): option normalisation maps `decimal`/`dot` to `.`,
`dash`/`hyphen` to `-` and `bracket`/`parenthesis` to `)`; every separator
value that is neither one of those six names nor an `Object.prototype`
property name is left unchanged; but a separator equal to an
`Object.prototype` property name (`toString`, `valueOf`, `constructor`, …)
is replaced by the inherited member the prototype-chain lookup finds. -/
theorem separator_normalisation_modulo_prototype (s p : String)
    (hs : s ∉ (["decimal", "dot", "dash", "hyphen", "bracket", "parenthesis"] : List String))
    (hs2 : s ∉ objectProtoKeys) (hp : p ∈ objectProtoKeys) :
    resolveSeparator "decimal" = .str "." ∧ resolveSeparator "dot" = .str "." ∧
    resolveSeparator "dash" = .str "-" ∧ resolveSeparator "hyphen" = .str "-" ∧
    resolveSeparator "bracket" = .str ")" ∧ resolveSeparator "parenthesis" = .str ")" ∧
    resolveSeparator s = .str s ∧
    resolveSeparator p = .inheritedMember p := by
  refine ⟨rfl, rfl, rfl, rfl, rfl, rfl, ?_, ?_⟩
  · simp only [List.mem_cons, List.not_mem_nil, or_false, not_or] at hs
    obtain ⟨h1, h2, h3, h4, h5, h6⟩ := hs
    simp [resolveSeparator, separatorMap, h1, h2, h3, h4, h5, h6, hs2]
  · fin_cases hp <;> rfl

/-- Witness for C10 (amended) at the default separator `-` and the
prototype key `toString`. -/
theorem separator_normalisation_modulo_prototype_witness :
    resolveSeparator "-" = .str "-" ∧ resolveSeparator "toString" ≠ .str "toString" := by
  have h := separator_normalisation_modulo_prototype "-" "toString"
    (by decide) (by decide) (by decide)
  refine ⟨h.2.2.2.2.2.2.1, ?_⟩
  rw [h.2.2.2.2.2.2.2]
  decide

end DocsifyAutoHeaders
